import Mathlib

/-!
# quickstart_scaling: the browser client and its wire bindings

A shallow embedding of the repository's JavaScript sources:

* `declarations/quickstart_scaling_index/quickstart_scaling_index.did.js` and
  `.did.d.ts` (the index interface),
* `declarations/quickstart_scaling_index/index.js` and
  `quickstart_scaling_frontend/src/bucketAgent.js` (`idlFactory`, `createActor`),
* `PostContent.jsx`, `FetchContent.jsx`, `AddModerator.jsx` (the submit handlers).

An asynchronous handler is a function from the component state and a `World`
(the answers of the remote services, the build-time environment, the global
scope) to a `Run`: the component state it leaves, the trace of observable
events, and the settlement of the returned promise.

The index and bucket services themselves are not part of the sources; the two
sections at the end model them from the specification.
-/

namespace QuickstartScaling

/-! ## Candid interface descriptions -/

/-- Candid types used by the two interface factories. -/
inductive IDLType where
  | Text
  | Bool
  | Nat
  | Nat64
  | Principal
  | Vec (t : IDLType)
  | Record (fields : List (String × IDLType))

/-- The value of `IDL.Func(args, rets, annotations)`. -/
structure IDLFunc where
  args : List IDLType
  rets : List IDLType
  annotations : List String

/-- The value of `IDL.Service(...)`: the methods in the order they are written. -/
abbrev IDLService := List (String × IDLFunc)

/-- A method is a query when its annotation list contains `'query'`. -/
def IDLFunc.isQuery (f : IDLFunc) : Bool := f.annotations.contains "query"

/-- Names of the methods of a service that are not queries. -/
def IDLService.updates (s : IDLService) : List String :=
  (s.filter (fun m => !m.2.isQuery)).map Prod.fst

/-- Names of the methods of a service that are queries. -/
def IDLService.queries (s : IDLService) : List String :=
  (s.filter (fun m => m.2.isQuery)).map Prod.fst

/-- The function description of a method, when the service has it. -/
def IDLService.method (s : IDLService) (name : String) : Option IDLFunc :=
  s.lookup name

namespace Index

/-- The `idlFactory` of `quickstart_scaling_index.did.js`. -/
def idlFactory : IDLService :=
  [ ("addContentModerator", ⟨[IDLType.Principal], [], []⟩),
    ("getAllIndexes", ⟨[], [IDLType.Vec IDLType.Principal], ["query"]⟩),
    ("getGlobalIndex", ⟨[], [IDLType.Vec (IDLType.Vec IDLType.Text)], ["query"]⟩),
    ("getIndexByTag", ⟨[IDLType.Text], [IDLType.Vec IDLType.Principal], ["query"]⟩),
    ("getMetrics", ⟨[], [IDLType.Text], ["query"]⟩),
    ("getUploadOrder", ⟨[], [IDLType.Vec IDLType.Principal], ["query"]⟩) ]

end Index

/-- TypeScript types used by `quickstart_scaling_index.did.d.ts`. -/
inductive TsType where
  | string
  | undefined
  | Principal
  | Array (t : TsType)
  deriving DecidableEq, Repr

/-- One member of the `_SERVICE` interface: parameter types and the type the
returned promise resolves to. -/
structure TsMethod where
  params : List TsType
  resolves : TsType
  deriving DecidableEq, Repr

/-- The `_SERVICE` interface of `quickstart_scaling_index.did.d.ts`. -/
def _SERVICE : List (String × TsMethod) :=
  [ ("addContentModerator", ⟨[TsType.Principal], TsType.undefined⟩),
    ("getAllIndexes", ⟨[], TsType.Array TsType.Principal⟩),
    ("getGlobalIndex", ⟨[], TsType.Array (TsType.Array TsType.string)⟩),
    ("getIndexByTag", ⟨[TsType.string], TsType.Array TsType.Principal⟩),
    ("getMetrics", ⟨[], TsType.string⟩),
    ("getUploadOrder", ⟨[], TsType.Array TsType.Principal⟩) ]

namespace Bucket

/-- The record `BucketEntry` of `bucketAgent.js`. -/
def BucketEntry : IDLType :=
  IDLType.Record
    [ ("tag", IDLType.Text), ("body", IDLType.Text),
      ("submitted_at", IDLType.Nat64), ("submitted_by", IDLType.Principal) ]

/-- The record `EffectiveIndex` of `bucketAgent.js`. -/
def EffectiveIndex : IDLType :=
  IDLType.Record
    [ ("tags", IDLType.Vec IDLType.Text), ("bucket_max_entries", IDLType.Nat64),
      ("current_entries", IDLType.Nat64) ]

/-- The record `BucketMetrics` of `bucketAgent.js`. -/
def BucketMetrics : IDLType :=
  IDLType.Record
    [ ("cycles_balance", IDLType.Nat),
      ("controllers", IDLType.Vec IDLType.Principal),
      ("memory_used", IDLType.Nat64),
      ("canister_id", IDLType.Principal),
      ("max_entries", IDLType.Nat64),
      ("current_entries", IDLType.Nat64),
      ("index_canister_id", IDLType.Principal),
      ("moderators", IDLType.Vec IDLType.Principal) ]

/-- The `idlFactory` of `bucketAgent.js`. -/
def idlFactory : IDLService :=
  [ ("getAll", ⟨[], [IDLType.Vec BucketEntry], ["query"]⟩),
    ("getBucketIndex", ⟨[], [EffectiveIndex], ["query"]⟩),
    ("getByTag", ⟨[IDLType.Text], [IDLType.Vec BucketEntry], ["query"]⟩),
    ("getMetrics", ⟨[], [BucketMetrics], ["query"]⟩),
    ("postContent", ⟨[IDLType.Text, IDLType.Text], [IDLType.Bool], []⟩) ]

end Bucket

/-! ## Values, objects and the observable trace -/

/-- A principal, known to the client only through `toText`. -/
structure Principal where
  toText : String
  deriving DecidableEq, Repr

/-- An `HttpAgent` instance: the options object it was constructed from. -/
structure HttpAgent where
  options : List (String × String)
  deriving DecidableEq, Repr

/-- The JavaScript values that occur in the objects handed to `createActor`. -/
inductive JsValue where
  | undefined
  | str (s : String)
  | agent (a : HttpAgent)
  deriving DecidableEq, Repr

/-- An object literal: its own properties in insertion order. -/
abbrev JsObject := List (String × JsValue)

/-- Property write: an existing key keeps its place and takes the new value, a
new key goes last. -/
def JsObject.set : JsObject → String → JsValue → JsObject
  | [], k, v => [(k, v)]
  | (k', v') :: rest, k, v =>
    if k' = k then (k', v) :: rest else (k', v') :: JsObject.set rest k v

/-- Object spread `{ ...o, ...src }`: the properties of `src` are written onto
`o` in order. -/
def JsObject.spread (o src : JsObject) : JsObject :=
  src.foldl (fun acc kv => JsObject.set acc kv.1 kv.2) o

/-- Property read; a missing property is `undefined`. -/
def JsObject.get (o : JsObject) (k : String) : JsValue :=
  match o.lookup k with
  | some v => v
  | none => JsValue.undefined

/-- The optional second argument of `createActor`. -/
structure ActorOptions where
  agentOptions : Option (List (String × String))
  actorOptions : Option JsObject

/-- What `Actor.createActor(idlFactory, config)` was given. -/
structure Actor where
  idl : IDLService
  config : JsObject

/-- The canister an actor sends its calls to. -/
def Actor.canisterId (a : Actor) : JsValue := a.config.get "canisterId"

/-- An entry of a bucket, as decoded by the bucket binding. -/
structure BucketEntry where
  tag : String
  body : String
  submitted_at : Nat
  submitted_by : Principal
  deriving DecidableEq, Repr

/-- Errors a handler can be rejected with. -/
inductive JsError where
  | TypeError (msg : String)
  | ReferenceError (name : String)
  | Rejected (reason : String)
  deriving DecidableEq, Repr

/-- A value written to the console. -/
inductive Logged where
  | str (s : String)
  | bool (b : Bool)
  | principals (ps : List Principal)
  | entries (es : List BucketEntry)
  | global (name : String)
  deriving DecidableEq, Repr

/-- An argument of a remote call. -/
inductive Arg where
  | text (s : String)
  | principal (p : Principal)
  deriving DecidableEq, Repr

/-- Observable events, in the order the code produces them. -/
inductive Event where
  | preventDefault
  | log (vals : List Logged)
  | newHttpAgent (options : List (String × String))
  | fetchRootKey
  | createActor (canisterId : JsValue)
  | call (canisterId : JsValue) (method : String) (args : List Arg)
  deriving DecidableEq, Repr

/-- The surroundings of the client: build-time environment, the global scope,
the principal library and the answers of the remote services. -/
structure World where
  /-- The value of `process.env.NODE_ENV`. -/
  NODE_ENV : Option String
  /-- The value of `process.env.QUICKSTART_SCALING_INDEX_CANISTER_ID`. -/
  QUICKSTART_SCALING_INDEX_CANISTER_ID : Option String
  /-- Which identifiers resolve in the global scope. -/
  globals : String → Bool
  /-- The library function `Principal.fromText`; `none` when it throws. -/
  fromText : String → Option Principal
  /-- Settlement of `getUploadOrder()` on the index. -/
  getUploadOrder : Except JsError (List Principal)
  /-- Settlement of `getIndexByTag(tag)` on the index. -/
  getIndexByTag : String → Except JsError (List Principal)
  /-- Settlement of `addContentModerator(p)` on the index. -/
  addContentModerator : Principal → Except JsError Unit
  /-- Settlement of `postContent(tag, text)` on the bucket with the given id. -/
  postContent : JsValue → String → String → Except JsError Bool
  /-- Settlement of the `i`-th `getByTag(tag)` of a submission, on the bucket
  with the given id. -/
  getByTag : Nat → JsValue → String → Except JsError (List BucketEntry)

/-- The outcome of running an asynchronous handler. -/
structure Run (σ : Type) where
  state : σ
  trace : List Event
  result : Except JsError Bool

/-! ## `createActor` -/

/-- The body shared by `createActor` of `declarations/quickstart_scaling_index/index.js`
and of `bucketAgent.js`; the two differ only in the `idlFactory` in scope.
Returns the events and the actor. -/
def createActorWith (idl : IDLService) (NODE_ENV : Option String) (canisterId : JsValue)
    (options : Option ActorOptions) : List Event × Actor :=
  -- const agent = new HttpAgent({ ...options?.agentOptions });
  let agentOptions : List (String × String) :=
    match options with
    | some o => (match o.agentOptions with | some ao => ao | none => [])
    | none => []
  let agent : HttpAgent := ⟨agentOptions⟩
  -- if (process.env.NODE_ENV !== "production") agent.fetchRootKey()...
  let fetch : List Event :=
    if NODE_ENV ≠ some "production" then [Event.fetchRootKey] else []
  -- Actor.createActor(idlFactory, { agent, canisterId, ...options?.actorOptions })
  let actorOptions : JsObject :=
    match options with
    | some o => (match o.actorOptions with | some ao => ao | none => [])
    | none => []
  let config : JsObject :=
    JsObject.spread [("agent", JsValue.agent agent), ("canisterId", canisterId)] actorOptions
  ([Event.newHttpAgent agentOptions] ++ fetch ++ [Event.createActor (JsObject.get config "canisterId")],
   ⟨idl, config⟩)

/-- The handler given to `.catch` on `agent.fetchRootKey()`: a warning and the
error, both written to the console when the request fails later on. -/
def onFetchRootKeyError (err : String) : List Event :=
  [ Event.log [Logged.str
      "Unable to fetch root key. Check to ensure that your local replica is running"],
    Event.log [Logged.str err] ]

namespace Index

/-- The `createActor` of `declarations/quickstart_scaling_index/index.js`. -/
def createActor (NODE_ENV : Option String) (canisterId : JsValue)
    (options : Option ActorOptions) : List Event × Actor :=
  createActorWith Index.idlFactory NODE_ENV canisterId options

/-- The exported `canisterId` of `index.js`. -/
def canisterId (w : World) : JsValue :=
  match w.QUICKSTART_SCALING_INDEX_CANISTER_ID with
  | some s => JsValue.str s
  | none => JsValue.undefined

/-- The exported ready-to-use actor `quickstart_scaling_index`. -/
def quickstart_scaling_index (w : World) : Actor :=
  (createActor w.NODE_ENV (canisterId w) none).2

end Index

namespace Bucket

/-- The `createActor` of `bucketAgent.js`. -/
def createActor (NODE_ENV : Option String) (canisterId : JsValue)
    (options : Option ActorOptions) : List Event × Actor :=
  createActorWith Bucket.idlFactory NODE_ENV canisterId options

end Bucket

/-- Whether an event is a `postContent` call. -/
def Event.isPostContent : Event → Bool
  | Event.call _ "postContent" _ => true
  | _ => false

/-- The remote calls of a trace, in order. -/
def calls (t : List Event) : List Event :=
  t.filter (fun e => match e with | Event.call _ _ _ => true | _ => false)

/-! ## `PostContent.jsx` -/

namespace PostContent

/-- The component state of `PostContent`. -/
structure State where
  greeting : String
  pending : Bool
  deriving DecidableEq, Repr

/-- The `handleSubmit` of `PostContent.jsx`; `tag` and `text` are the values of
the two input fields. -/
def handleSubmit (w : World) (tag text : String) (st : State) : Run State :=
  -- e.preventDefault(); setPending(true);
  let st1 : State := { st with pending := true }
  -- console.log(tag, text);
  let t1 : List Event := [Event.preventDefault, Event.log [Logged.str tag, Logged.str text]]
  -- const send_bucket = await quickstart_scaling_index.getUploadOrder();
  let t2 := t1 ++ [Event.call (Index.quickstart_scaling_index w).canisterId "getUploadOrder" []]
  match w.getUploadOrder with
  | Except.error err => ⟨st1, t2, Except.error err⟩
  | Except.ok send_bucket =>
    -- console.log("Should send to " + send_bucket[0].toText())
    match send_bucket with
    | [] =>
      ⟨st1, t2, Except.error
        (JsError.TypeError "Cannot read properties of undefined (reading toText)")⟩
    | first :: _ =>
      let t3 := t2 ++ [Event.log [Logged.str ("Should send to " ++ first.toText)]]
      -- const quickstart_scaling_bucket = createActor(send_bucket[0].toText());
      let created := Bucket.createActor w.NODE_ENV (JsValue.str first.toText) none
      let quickstart_scaling_bucket := created.2
      let t4 := t3 ++ created.1
      -- const response = await quickstart_scaling_bucket.postContent(tag,text);
      let t5 := t4 ++ [Event.call quickstart_scaling_bucket.canisterId "postContent"
        [Arg.text tag, Arg.text text]]
      match w.postContent quickstart_scaling_bucket.canisterId tag text with
      | Except.error err => ⟨st1, t5, Except.error err⟩
      | Except.ok response =>
        -- console.log(response)
        let t6 := t5 ++ [Event.log [Logged.bool response]]
        -- if (response) setGreeting("Sent " + tag + " " + text + " to " + ...)
        let st2 : State :=
          if response then
            { st1 with greeting := "Sent " ++ tag ++ " " ++ text ++ " to " ++ first.toText }
          else st1
        -- setPending(false); return false;
        ⟨{ st2 with pending := false }, t6, Except.ok false⟩

end PostContent

/-! ## `FetchContent.jsx` -/

namespace FetchContent

/-- The component state of `FetchContent`. -/
structure State where
  pending : Bool
  contentList : List BucketEntry
  bucketCount : Nat
  deriving DecidableEq, Repr

/-- Which array the `contentList` state currently refers to while a submission
runs: a fresh empty array given to `setContentList([])`, or the array the
handler closed over (`newcontent`), which `push` keeps mutating. -/
inductive ListRef where
  | fresh
  | captured
  deriving DecidableEq, Repr

/-- The part of the heap and of the component state a running submission works
on. -/
structure Heap where
  /-- Contents of the array bound to `contentList` in the closure of the handler. -/
  captured : List BucketEntry
  /-- The array the state refers to. -/
  current : ListRef
  pending : Bool
  bucketCount : Nat
  deriving DecidableEq, Repr

/-- The component state seen by the next render. -/
def Heap.toState (h : Heap) : State :=
  { pending := h.pending,
    contentList := (match h.current with
      | ListRef.fresh => []
      | ListRef.captured => h.captured),
    bucketCount := h.bucketCount }

/-- The `getContentFromBucket` of `FetchContent.jsx`, called as the `i`-th
request of a submission. The right-hand side `getByTag(tag)` is evaluated
before the assignment to the undeclared `text`, which in module (strict) code
is a `ReferenceError` unless `text` resolves in the global scope. -/
def getContentFromBucket (w : World) (i : Nat) (tag : String) (bucketId : String) :
    List Event × Except JsError (List BucketEntry) :=
  -- const quickstart_scaling_bucket = createActor(bucketId);
  let created := Bucket.createActor w.NODE_ENV (JsValue.str bucketId) none
  let quickstart_scaling_bucket := created.2
  -- text = quickstart_scaling_bucket.getByTag(tag)
  let t := created.1 ++ [Event.call quickstart_scaling_bucket.canisterId "getByTag" [Arg.text tag]]
  if w.globals "text" then
    -- return text;
    (t, w.getByTag i quickstart_scaling_bucket.canisterId tag)
  else
    (t, Except.error (JsError.ReferenceError "text"))

/-- The callback of `content.map` applied to every item in order:
`newcontent.push(item); setContentList(newcontent)`. -/
def pushAll : List BucketEntry → Heap → List Event → Heap × List Event
  | [], h, t => (h, t)
  | item :: rest, h, t =>
    let captured := h.captured ++ [item]
    pushAll rest { h with captured := captured, current := ListRef.captured }
      (t ++ [ Event.log [Logged.str ("Adding" ++ item.body)],
              Event.log [Logged.str ("Added. newcontent is now:" ++ toString captured.length)] ])

/-- The `for (const bucket in bucket_list)` loop of `handleSubmit`; `i` is the
index of the first remaining element. -/
def loop (w : World) (tag : String) : Nat → List Principal → Heap → List Event → Run Heap
  | _, [], h, t => ⟨h, t, Except.ok false⟩
  | i, p :: rest, h, t =>
    -- console.log(bucket_list[bucket].toText())
    let t1 := t ++ [Event.log [Logged.str p.toText]]
    -- const content = await getContentFromBucket(tag, bucket_list[bucket].toText())
    let got := getContentFromBucket w i tag p.toText
    let t2 := t1 ++ got.1
    match got.2 with
    | Except.error err => ⟨h, t2, Except.error err⟩
    | Except.ok content =>
      -- console.log(content)
      let t3 := t2 ++ [Event.log [Logged.entries content]]
      -- const newcontent = contentList; setContentList([]);
      let h1 : Heap := { h with current := ListRef.fresh }
      -- content.map(item => ...)
      let pushed := pushAll content h1 t3
      loop w tag (i + 1) rest pushed.1 pushed.2

/-- The `handleSubmit` of `FetchContent.jsx`; `tag` is the value of the input
field and `st` the state of the render the handler belongs to. -/
def handleSubmit (w : World) (tag : String) (st : State) : Run State :=
  -- e.preventDefault(); setPending(true); setContentList([]);
  let h0 : Heap :=
    { captured := st.contentList, current := ListRef.fresh, pending := true,
      bucketCount := st.bucketCount }
  -- const bucket_list = await quickstart_scaling_index.getIndexByTag(tag);
  let t1 : List Event :=
    [ Event.preventDefault,
      Event.call (Index.quickstart_scaling_index w).canisterId "getIndexByTag" [Arg.text tag] ]
  match w.getIndexByTag tag with
  | Except.error err => ⟨h0.toState, t1, Except.error err⟩
  | Except.ok bucket_list =>
    -- console.log(bucket_list); setBucketCount(bucket_list.length); setContentList([]);
    let t2 := t1 ++ [Event.log [Logged.principals bucket_list]]
    let h1 : Heap := { h0 with bucketCount := bucket_list.length, current := ListRef.fresh }
    let r := loop w tag 0 bucket_list h1 t2
    match r.result with
    | Except.error err => ⟨r.state.toState, r.trace, Except.error err⟩
    | Except.ok _ =>
      -- setPending(false); return false;
      ⟨{ r.state with pending := false }.toState, r.trace, Except.ok false⟩

end FetchContent

/-! ## `AddModerator.jsx` -/

namespace AddModerator

/-- The component state of `AddModerator`. -/
structure State where
  greeting : List String
  pending : Bool
  deriving DecidableEq, Repr

/-- The `handleSubmit` of `AddModerator.jsx`; `moderator` is the value of the
input field. The identifiers `text` and `zzz` are declared nowhere in the
module: reading one is a `ReferenceError` unless it resolves in the global
scope. -/
def handleSubmit (w : World) (moderator : String) (st : State) : Run State :=
  -- e.preventDefault(); setPending(true);
  let st1 : State := { st with pending := true }
  let t1 : List Event := [Event.preventDefault]
  -- console.log(moderator, text);
  if w.globals "text" then
    let t2 := t1 ++ [Event.log [Logged.str moderator, Logged.global "text"]]
    -- const moderatorPrincipal = Principal.fromText(moderator);
    match w.fromText moderator with
    | none => ⟨st1, t2, Except.error (JsError.Rejected "Principal.fromText")⟩
    | some moderatorPrincipal =>
      -- const send_bucket = await quickstart_scaling_index.addContentModerator(moderatorPrincipal);
      let t3 := t2 ++ [Event.call (Index.quickstart_scaling_index w).canisterId
        "addContentModerator" [Arg.principal moderatorPrincipal]]
      match w.addContentModerator moderatorPrincipal with
      | Except.error err => ⟨st1, t3, Except.error err⟩
      | Except.ok _ =>
        -- console.log(zzz)
        if w.globals "zzz" then
          let t4 := t3 ++ [Event.log [Logged.global "zzz"]]
          -- setPending(false); return false;
          ⟨{ st1 with pending := false }, t4, Except.ok false⟩
        else
          ⟨st1, t3, Except.error (JsError.ReferenceError "zzz")⟩
  else
    ⟨st1, t1, Except.error (JsError.ReferenceError "text")⟩

end AddModerator

/-! ## The bucket (shard) service, from the specification -/

namespace Shard

/-- Modelled from the spec: the `ContentEntry` record of the data model (the
bucket service is not part of the sources). -/
structure ContentEntry where
  tag : String
  body : String
  submitted_at : Nat
  submitted_by : Principal
  deriving DecidableEq, Repr

/-- Modelled from the spec: the shard state of the data model; `max_entries`
and `current_entries` are `u64` counters held as naturals. -/
structure State where
  address : Principal
  max_entries : Nat
  current_entries : Nat
  entries : List ContentEntry
  moderators : List Principal
  controllers : List Principal
  deriving DecidableEq, Repr

/-- Modelled from the spec: a shard's self-report `EffectiveIndex`. -/
structure EffectiveIndex where
  tags : List String
  bucket_max_entries : Nat
  current_entries : Nat
  deriving DecidableEq, Repr

/-- Modelled from the spec: the two ways a write is rejected. -/
inductive Error where
  | CapacityExceeded
  | Unauthorized
  deriving DecidableEq, Repr

/-- Modelled from the spec: the arguments of one `postContent` request together
with its caller and arrival time. -/
structure Post where
  caller : Principal
  now : Nat
  tag : String
  body : String
  deriving DecidableEq, Repr

/-- Modelled from the spec: a shard as provisioned, holding nothing. -/
def create (address : Principal) (max_entries : Nat) : State :=
  { address := address, max_entries := max_entries, current_entries := 0, entries := [],
    moderators := [], controllers := [] }

/-- Modelled from the spec: `getAll`, the full content in insertion order. -/
def getAll (s : State) : List ContentEntry := s.entries

/-- Modelled from the spec: `getByTag`, the exact-match subsequence. -/
def getByTag (s : State) (tag : String) : List ContentEntry :=
  s.entries.filter (fun e => e.tag == tag)

/-- Modelled from the spec: `getBucketIndex`, the union of the tags ever stored
with the two counters. -/
def getBucketIndex (s : State) : EffectiveIndex :=
  { tags := (s.entries.map (fun e => e.tag)).dedup, bucket_max_entries := s.max_entries,
    current_entries := s.current_entries }

/-- Modelled from the spec: `postContent` of section 4.1. Fails with
`CapacityExceeded` if `current_entries >= max_entries`, with `Unauthorized` if
the caller is not permitted (`permitted` is the external policy), otherwise
appends the entry and increments the `u64` counter. Returns the answer, the
next state and the report sent to the index service, if any. -/
def postContent (permitted : Principal → Bool) (s : State) (p : Post) :
    Except Error Bool × State × Option EffectiveIndex :=
  if s.max_entries ≤ s.current_entries then
    (Except.error Error.CapacityExceeded, s, none)
  else if !permitted p.caller then
    (Except.error Error.Unauthorized, s, none)
  else
    let s1 : State :=
      { s with
        entries := s.entries ++ [⟨p.tag, p.body, p.now, p.caller⟩],
        current_entries := (s.current_entries + 1) % 2 ^ 64 }
    (Except.ok true, s1, some (getBucketIndex s1))

/-- Modelled from the spec: a shard serving `postContent` requests one at a
time, in arrival order (section 5); returns the answers and the last state. -/
def runPosts (permitted : Principal → Bool) :
    State → List Post → List (Except Error Bool) × State
  | s, [] => ([], s)
  | s, p :: rest =>
    let r := postContent permitted s p
    let rs := runPosts permitted r.2.1 rest
    (r.1 :: rs.1, rs.2)

/-- Modelled from the spec: the invariant of section 8 on a shard state, with
the range of the `u64` capacity. -/
def Inv (s : State) : Prop :=
  s.current_entries = s.entries.length ∧ s.entries.length ≤ s.max_entries ∧
    s.max_entries < 2 ^ 64

end Shard

/-! ## The index service, from the specification -/

namespace IndexService

/-- Modelled from the spec: what the index service knows of one registered
shard (its load table row and reported tags); the index service is not part
of the sources. -/
structure ShardView where
  address : Principal
  max_entries : Nat
  current_entries : Nat
  tags : List String
  deriving DecidableEq, Repr

/-- Modelled from the spec: the shard registry in creation order, with the
last-known view of each shard. -/
structure State where
  registry : List ShardView
  deriving DecidableEq, Repr

/-- Modelled from the spec: the design parameters of section 4.3, the
low-water-mark `W` and the standard `max_entries` of a new shard. -/
structure Config where
  lowWaterMark : Nat
  standardMaxEntries : Nat
  deriving DecidableEq, Repr

/-- Modelled from the spec: free capacity, the rank key. -/
def remaining (v : ShardView) : Nat := v.max_entries - v.current_entries

/-- Modelled from the spec: the candidates, shards with
`current_entries < max_entries` in the latest known view. -/
def candidates (registry : List ShardView) : List ShardView :=
  registry.filter (fun v => v.current_entries < v.max_entries)

/-- Modelled from the spec: the ranking of section 4.3, most free capacity
first, ties in creation order (a stable insertion sort of the candidates). -/
def ranked (registry : List ShardView) : List ShardView :=
  List.insertionSort (fun a b => remaining b ≤ remaining a) (candidates registry)

/-- Modelled from the spec: total remaining capacity of the ranked list. -/
def totalRemaining (registry : List ShardView) : Nat :=
  ((ranked registry).map remaining).sum

/-- Modelled from the spec: registration of a new shard at the end of the
registry, with the standard capacity and no entries. -/
def register (cfg : Config) (st : State) (a : Principal) : State :=
  { registry := st.registry ++ [⟨a, cfg.standardMaxEntries, 0, []⟩] }

/-- Modelled from the spec: the merge rule of section 4.4 for a report of the
shard `a`: take the latest entry count, union the tags. -/
def mergeReport (st : State) (a : Principal) (report : Shard.EffectiveIndex) : State :=
  { registry := st.registry.map (fun v =>
      if v.address = a then
        { v with current_entries := report.current_entries,
                 tags := (v.tags ++ report.tags).dedup }
      else v) }

/-- Modelled from the spec: `listShards`, the registry in creation order. -/
def listShards (st : State) : List Principal := st.registry.map (fun v => v.address)

/-- Modelled from the spec: `getUploadOrder` of sections 4.2 and 4.3. When the
total remaining capacity is below the low-water-mark a shard is provisioned:
`provisioned` is its address, or `none` when provisioning fails, and
`observed` says whether its registration is seen before the answer is
computed. The answer is the ranked list of non-saturated shards. -/
def getUploadOrder (cfg : Config) (provisioned : Option Principal) (observed : Bool)
    (st : State) : State × List Principal :=
  if totalRemaining st.registry < cfg.lowWaterMark then
    match provisioned with
    | some a =>
      let st1 := register cfg st a
      if observed then (st1, (ranked st1.registry).map (fun v => v.address))
      else (st1, (ranked st.registry).map (fun v => v.address))
    | none => (st, (ranked st.registry).map (fun v => v.address))
  else (st, (ranked st.registry).map (fun v => v.address))

/-- Modelled from the spec: the states the index service can be in. It starts
with an empty registry, registers shards under addresses not used before
(addresses are globally unique) and merges shard reports. -/
inductive Reachable (cfg : Config) : State → Prop where
  | init : Reachable cfg ⟨[]⟩
  | provision (st : State) (a : Principal) :
      Reachable cfg st → a ∉ listShards st → Reachable cfg (register cfg st a)
  | merge (st : State) (a : Principal) (report : Shard.EffectiveIndex) :
      Reachable cfg st → Reachable cfg (mergeReport st a report)

end IndexService

/-! ## Reading an object built by spread -/

/-- The value the last property named `k` of a property list carries, if any:
what a spread of the list writes for `k`. -/
def JsObject.lastValue : JsObject → String → Option JsValue
  | [], _ => none
  | (k', v) :: rest, k =>
    match JsObject.lastValue rest k with
    | some x => some x
    | none => if k' = k then some v else none

/-! ## Sample inputs -/

/-- A world in which every remote call is answered with an empty or negative
result; the examples below override single fields. -/
def quietWorld : World :=
  { NODE_ENV := some "development",
    QUICKSTART_SCALING_INDEX_CANISTER_ID := some "index",
    globals := fun _ => false,
    fromText := fun s => some ⟨s⟩,
    getUploadOrder := Except.ok [],
    getIndexByTag := fun _ => Except.ok [],
    addContentModerator := fun _ => Except.ok (),
    postContent := fun _ _ _ => Except.ok false,
    getByTag := fun _ _ _ => Except.ok [] }

/-- The index answers `getUploadOrder` with two buckets and the first bucket
answers `postContent` with `false`. -/
def twoBucketWorld : World :=
  { quietWorld with getUploadOrder := Except.ok [⟨"b0"⟩, ⟨"b1"⟩] }

/-- The index answers `getUploadOrder` with two buckets and the call of
`postContent` on a bucket fails. -/
def failingBucketWorld : World :=
  { quietWorld with
    getUploadOrder := Except.ok [⟨"b0"⟩, ⟨"b1"⟩],
    postContent := fun _ _ _ => Except.error (JsError.Rejected "CapacityExceeded") }

/-- The index answers `getUploadOrder` with one bucket, which accepts. -/
def acceptingWorld : World :=
  { quietWorld with
    getUploadOrder := Except.ok [⟨"b0"⟩],
    postContent := fun _ _ _ => Except.ok true }

/-- A browser page on which `text` resolves in the global scope (the page has
an element with that id) and `zzz` does not. -/
def pageWorld : World :=
  { quietWorld with globals := fun name => name == "text" }

/-- An entry held by some bucket. -/
def entryX : BucketEntry := ⟨"t", "x", 1, ⟨"alice"⟩⟩

/-- Another entry. -/
def entryY : BucketEntry := ⟨"t", "y", 2, ⟨"bob"⟩⟩

/-- The page world in which the tag `t` is held by bucket `b0` alone, whose
answer to `getByTag` is the single entry `entryY`. -/
def oneHolderWorld : World :=
  { pageWorld with
    getIndexByTag := fun _ => Except.ok [⟨"b0"⟩],
    getByTag := fun _ _ _ => Except.ok [entryY] }

/-- The page world in which the tag `t` is listed for `b0` and `b1`; `b0`
answers with `entryX` and `b1` with nothing. -/
def emptyLastWorld : World :=
  { pageWorld with
    getIndexByTag := fun _ => Except.ok [⟨"b0"⟩, ⟨"b1"⟩],
    getByTag := fun i _ _ => if i = 0 then Except.ok [entryX] else Except.ok [] }

/-- The world of `oneHolderWorld` on a page where `text` does not resolve in
the global scope. -/
def unresolvedTextWorld : World :=
  { oneHolderWorld with globals := fun _ => false }

/-- Options whose `actorOptions` carry a canister id of their own. -/
def overridingOptions : ActorOptions :=
  { agentOptions := none, actorOptions := some [("canisterId", JsValue.str "other")] }

/-- The three requests of the capacity scenario. -/
def scenarioPosts : List Shard.Post :=
  [ ⟨⟨"alice"⟩, 1, "a", "x"⟩, ⟨⟨"alice"⟩, 2, "b", "y"⟩, ⟨⟨"alice"⟩, 3, "c", "z"⟩ ]

/-- A registry with one saturated and one half-full shard. -/
def sampleIndex : IndexService.State :=
  IndexService.mergeReport
    (IndexService.mergeReport
      (IndexService.register ⟨2, 2⟩ (IndexService.register ⟨2, 2⟩ ⟨[]⟩ ⟨"b0"⟩) ⟨"b1"⟩)
      ⟨"b0"⟩ ⟨["a"], 2, 2⟩)
    ⟨"b1"⟩ ⟨["a"], 2, 1⟩

/-! ## Shared lemmas -/

theorem JsObject.get_set (o : JsObject) (k : String) (v : JsValue) (k' : String) :
    JsObject.get (JsObject.set o k v) k' = if k = k' then v else JsObject.get o k' := by
  induction o with
  | nil =>
    by_cases h : k = k'
    · simp [JsObject.set, JsObject.get, List.lookup, h]
    · have h' : (k' == k) = false := by simpa using fun e => h e.symm
      simp [JsObject.set, JsObject.get, List.lookup, h, h']
  | cons kv rest ih =>
    obtain ⟨k0, v0⟩ := kv
    by_cases h0 : k0 = k
    · subst h0
      by_cases h : k0 = k'
      · subst h
        simp [JsObject.set, JsObject.get, List.lookup]
      · have h' : (k' == k0) = false := by simpa using fun e => h e.symm
        simp [JsObject.set, JsObject.get, List.lookup, h, h']
    · by_cases h1 : k' = k0
      · subst h1
        have hk : ¬ k = k' := fun e => h0 e.symm
        simp [JsObject.set, JsObject.get, List.lookup, h0, hk]
      · have h' : (k' == k0) = false := by simpa using h1
        have ih' := ih
        simp only [JsObject.get] at ih'
        simp [JsObject.set, JsObject.get, List.lookup, h0, h', ih']

/-- The actor made for a bucket without options talks to the canister it was
made for. -/
theorem createActorWith_canisterId_none (idl : IDLService) (env : Option String)
    (cid : JsValue) : (createActorWith idl env cid none).2.canisterId = cid := by
  simp [createActorWith, Actor.canisterId, JsObject.spread, JsObject.get, List.lookup]

/-- The events of `createActor` contain no remote call. -/
theorem createActorWith_no_call (idl : IDLService) (env : Option String) (cid : JsValue)
    (options : Option ActorOptions) (p : Event → Bool)
    (hp : p Event.fetchRootKey = false)
    (hn : ∀ o, p (Event.newHttpAgent o) = false) (hc : ∀ c, p (Event.createActor c) = false) :
    (createActorWith idl env cid options).1.filter p = [] := by
  simp only [createActorWith]
  split_ifs <;> simp [List.filter, hp, hn, hc]

/-- The `postContent` calls of a submission whose upload order starts with
`first`: one call, to `first`, whatever the bucket answers. -/
theorem PostContent.postContent_calls (w : World) (tag text : String)
    (st : PostContent.State) (first : Principal) (rest : List Principal)
    (h : w.getUploadOrder = Except.ok (first :: rest)) :
    (PostContent.handleSubmit w tag text st).trace.filter Event.isPostContent =
      [Event.call (JsValue.str first.toText) "postContent" [Arg.text tag, Arg.text text]] := by
  have hc := createActorWith_canisterId_none Bucket.idlFactory w.NODE_ENV
    (JsValue.str first.toText)
  have hf := createActorWith_no_call Bucket.idlFactory w.NODE_ENV (JsValue.str first.toText)
    none Event.isPostContent rfl (fun _ => rfl) (fun _ => rfl)
  unfold PostContent.handleSubmit
  simp only [h, Bucket.createActor, hc]
  cases w.postContent (JsValue.str first.toText) tag text <;>
    simp [List.filter_append, hf, List.filter, Event.isPostContent]

/-! ## The claims -/

/-- C1: for every tag, every text and every non-empty shard list returned by
`getUploadOrder`, `handleSubmit` of `PostContent` makes exactly one
`postContent(tag, text)` call, addressed to the first shard of the list. -/
theorem C1_post_goes_once_to_top_ranked (w : World) (tag text : String)
    (st : PostContent.State) (shards : List Principal) (hne : shards ≠ [])
    (h : w.getUploadOrder = Except.ok shards) :
    (PostContent.handleSubmit w tag text st).trace.filter Event.isPostContent =
      [Event.call (JsValue.str (shards.head hne).toText) "postContent"
        [Arg.text tag, Arg.text text]] := by
  cases shards with
  | nil => exact absurd rfl hne
  | cons first rest => simpa using PostContent.postContent_calls w tag text st first rest h

/-- C1 at the upload order `b0` with an accepting bucket. -/
theorem C1_post_goes_once_to_top_ranked_witness :
    (PostContent.handleSubmit acceptingWorld "t" "x" ⟨"", false⟩).trace.filter
        Event.isPostContent =
      [Event.call (JsValue.str "b0") "postContent" [Arg.text "t", Arg.text "x"]] :=
  C1_post_goes_once_to_top_ranked acceptingWorld "t" "x" ⟨"", false⟩ [⟨"b0"⟩]
    (by simp) rfl

/-- C2, the code at the failing input: when `getUploadOrder` returns the empty
list, `handleSubmit` of `PostContent` makes no `postContent` call, but it is
rejected with a `TypeError` and the pending flag stays `true`. -/
theorem C2_empty_order_rejects :
    quietWorld.getUploadOrder = Except.ok [] ∧
    (PostContent.handleSubmit quietWorld "t" "x" ⟨"", false⟩).result =
      Except.error (JsError.TypeError "Cannot read properties of undefined (reading toText)") ∧
    (PostContent.handleSubmit quietWorld "t" "x" ⟨"", false⟩).state.pending = true ∧
    (PostContent.handleSubmit quietWorld "t" "x" ⟨"", false⟩).trace.filter
      Event.isPostContent = [] := by
  refine ⟨rfl, rfl, rfl, ?_⟩
  decide

/-- C3 as stated fails: with the upload order `b0, b1` and `postContent` on
`b0` answering `false`, the trace of `handleSubmit` holds no call to `b1`. -/
theorem C3_no_retry_counterexample :
    twoBucketWorld.getUploadOrder = Except.ok [⟨"b0"⟩, ⟨"b1"⟩] ∧
    twoBucketWorld.postContent (JsValue.str "b0") "t" "x" = Except.ok false ∧
    Event.call (JsValue.str "b1") "postContent" [Arg.text "t", Arg.text "x"] ∉
      (PostContent.handleSubmit twoBucketWorld "t" "x" ⟨"", false⟩).trace := by
  refine ⟨rfl, rfl, ?_⟩
  decide

/-- C3 amended: for every upload order with at least two shards, if the write
to the top-ranked shard is rejected (`postContent` returns `false` or fails),
`handleSubmit` of `PostContent` does not retry: the call to the top-ranked
shard is its only `postContent` call; after an answer `false` it completes
with the pending flag `false` and the greeting unchanged, and after a failure
it is rejected with that failure. -/
theorem C3_rejected_write_is_not_retried (w : World) (tag text : String)
    (st : PostContent.State) (s0 s1 : Principal) (rest : List Principal)
    (h : w.getUploadOrder = Except.ok (s0 :: s1 :: rest)) :
    (PostContent.handleSubmit w tag text st).trace.filter Event.isPostContent =
        [Event.call (JsValue.str s0.toText) "postContent" [Arg.text tag, Arg.text text]] ∧
    (w.postContent (JsValue.str s0.toText) tag text = Except.ok false →
      (PostContent.handleSubmit w tag text st).result = Except.ok false ∧
        (PostContent.handleSubmit w tag text st).state = ⟨st.greeting, false⟩) ∧
    (∀ err, w.postContent (JsValue.str s0.toText) tag text = Except.error err →
      (PostContent.handleSubmit w tag text st).result = Except.error err) := by
  have hc := createActorWith_canisterId_none Bucket.idlFactory w.NODE_ENV
    (JsValue.str s0.toText)
  refine ⟨PostContent.postContent_calls w tag text st s0 (s1 :: rest) h, ?_, ?_⟩
  · intro hfalse
    unfold PostContent.handleSubmit
    simp [h, Bucket.createActor, hc, hfalse]
  · intro err herr
    unfold PostContent.handleSubmit
    simp [h, Bucket.createActor, hc, herr]

/-- C3 amended, at the upload order `b0, b1`: with `b0` answering `false`, and
with the call on `b0` failing. -/
theorem C3_rejected_write_is_not_retried_witness :
    (twoBucketWorld.getUploadOrder = Except.ok [⟨"b0"⟩, ⟨"b1"⟩] ∧
      (PostContent.handleSubmit twoBucketWorld "t" "x" ⟨"old", false⟩).trace.filter
          Event.isPostContent =
        [Event.call (JsValue.str "b0") "postContent" [Arg.text "t", Arg.text "x"]] ∧
      (PostContent.handleSubmit twoBucketWorld "t" "x" ⟨"old", false⟩).result =
        Except.ok false ∧
      (PostContent.handleSubmit twoBucketWorld "t" "x" ⟨"old", false⟩).state =
        ⟨"old", false⟩) ∧
    (failingBucketWorld.getUploadOrder = Except.ok [⟨"b0"⟩, ⟨"b1"⟩] ∧
      (PostContent.handleSubmit failingBucketWorld "t" "x" ⟨"old", false⟩).trace.filter
          Event.isPostContent =
        [Event.call (JsValue.str "b0") "postContent" [Arg.text "t", Arg.text "x"]] ∧
      (PostContent.handleSubmit failingBucketWorld "t" "x" ⟨"old", false⟩).result =
        Except.error (JsError.Rejected "CapacityExceeded")) :=
  have h := C3_rejected_write_is_not_retried twoBucketWorld "t" "x" ⟨"old", false⟩
    ⟨"b0"⟩ ⟨"b1"⟩ [] rfl
  have g := C3_rejected_write_is_not_retried failingBucketWorld "t" "x" ⟨"old", false⟩
    ⟨"b0"⟩ ⟨"b1"⟩ [] rfl
  ⟨⟨rfl, h.1, (h.2.1 rfl).1, (h.2.1 rfl).2⟩, ⟨rfl, g.1, g.2.2 _ rfl⟩⟩

/-- C5: in the wire bindings the only non-query method of the index interface
is `addContentModerator` and the only non-query method of the bucket interface
is `postContent`; the five other index methods and `getAll`, `getBucketIndex`,
`getByTag`, `getMetrics` of the bucket are queries. -/
theorem C5_only_two_update_methods :
    Index.idlFactory.updates = ["addContentModerator"] ∧
    Index.idlFactory.queries =
      ["getAllIndexes", "getGlobalIndex", "getIndexByTag", "getMetrics", "getUploadOrder"] ∧
    Bucket.idlFactory.updates = ["postContent"] ∧
    Bucket.idlFactory.queries = ["getAll", "getBucketIndex", "getByTag", "getMetrics"] := by
  refine ⟨?_, ?_, ?_, ?_⟩ <;> decide

/-- C6 as stated fails: the result type of `getGlobalIndex` in the binding is
not a sequence of records, whatever the fields. -/
theorem C6_not_a_record_counterexample :
    ¬ ∃ (f : IDLFunc) (fields : List (String × IDLType)),
      Index.idlFactory.method "getGlobalIndex" = some f ∧
      f.rets = [IDLType.Vec (IDLType.Record fields)] := by
  rintro ⟨f, fields, hf, hr⟩
  have : f = ⟨[], [IDLType.Vec (IDLType.Vec IDLType.Text)], ["query"]⟩ := by
    have h' : Index.idlFactory.method "getGlobalIndex" =
        some ⟨[], [IDLType.Vec (IDLType.Vec IDLType.Text)], ["query"]⟩ := rfl
    rw [h'] at hf
    exact (Option.some.inj hf).symm
  subst this
  simp at hr

/-- C6 amended: `getGlobalIndex` of the index interface is a query without
arguments that returns a sequence of sequences of text (`Array<Array<string>>`
in the TypeScript declaration): each entry is an untyped list of strings, with
no record structure and no address-typed component. -/
theorem C6_global_index_is_nested_text :
    (Index.idlFactory.method "getGlobalIndex").map (fun f => f.args) = some [] ∧
    (Index.idlFactory.method "getGlobalIndex").map (fun f => f.rets) =
      some [IDLType.Vec (IDLType.Vec IDLType.Text)] ∧
    (Index.idlFactory.method "getGlobalIndex").map (fun f => f.annotations) =
      some ["query"] ∧
    _SERVICE.lookup "getGlobalIndex" =
      some ⟨[], TsType.Array (TsType.Array TsType.string)⟩ := by
  refine ⟨?_, ?_, ?_, ?_⟩ <;> rfl

/-- C4, the code at failing inputs. With `entryX` held before the submission
and the single listed bucket answering `entryY`, `handleSubmit` of
`FetchContent` completes and leaves `entryX, entryY`, not `entryY`. With
nothing held before and two listed buckets, the first answering `entryX` and
the last nothing, it completes and leaves the empty list, not `entryX`. On a
page where `text` does not resolve, it is rejected with a `ReferenceError`
after the first `getByTag` call. -/
theorem C4_content_list_is_not_the_concatenation :
    (oneHolderWorld.getIndexByTag "t" = Except.ok [⟨"b0"⟩] ∧
      oneHolderWorld.getByTag 0 (JsValue.str "b0") "t" = Except.ok [entryY] ∧
      (FetchContent.handleSubmit oneHolderWorld "t" ⟨false, [entryX], 0⟩).result =
        Except.ok false ∧
      (FetchContent.handleSubmit oneHolderWorld "t" ⟨false, [entryX], 0⟩).state =
        ⟨false, [entryX, entryY], 1⟩) ∧
    (emptyLastWorld.getIndexByTag "t" = Except.ok [⟨"b0"⟩, ⟨"b1"⟩] ∧
      emptyLastWorld.getByTag 0 (JsValue.str "b0") "t" = Except.ok [entryX] ∧
      emptyLastWorld.getByTag 1 (JsValue.str "b1") "t" = Except.ok [] ∧
      (FetchContent.handleSubmit emptyLastWorld "t" ⟨false, [], 0⟩).result =
        Except.ok false ∧
      (FetchContent.handleSubmit emptyLastWorld "t" ⟨false, [], 0⟩).state =
        ⟨false, [], 2⟩) ∧
    (unresolvedTextWorld.getIndexByTag "t" = Except.ok [⟨"b0"⟩] ∧
      (FetchContent.handleSubmit unresolvedTextWorld "t" ⟨false, [], 0⟩).result =
        Except.error (JsError.ReferenceError "text") ∧
      (FetchContent.handleSubmit unresolvedTextWorld "t" ⟨false, [], 0⟩).state =
        ⟨true, [], 1⟩ ∧
      calls (FetchContent.handleSubmit unresolvedTextWorld "t" ⟨false, [], 0⟩).trace =
        [ Event.call (JsValue.str "index") "getIndexByTag" [Arg.text "t"],
          Event.call (JsValue.str "b0") "getByTag" [Arg.text "t"] ]) := by
  refine ⟨⟨rfl, rfl, rfl, ?_⟩, ⟨rfl, rfl, rfl, rfl, ?_⟩, ⟨rfl, rfl, ?_, ?_⟩⟩ <;> decide

/-- C10, the code at the failing input: on a page where `text` resolves and
`zzz` does not, with the input `aaaaa-aa` parsing as a principal,
`handleSubmit` of `AddModerator` calls `addContentModerator` once with that
principal, and is then rejected with a `ReferenceError` for `zzz`, the
pending flag left `true`. -/
theorem C10_add_moderator_rejects_after_call :
    pageWorld.fromText "aaaaa-aa" = some ⟨"aaaaa-aa"⟩ ∧
    calls (AddModerator.handleSubmit pageWorld "aaaaa-aa" ⟨[], false⟩).trace =
      [Event.call (JsValue.str "index") "addContentModerator"
        [Arg.principal ⟨"aaaaa-aa"⟩]] ∧
    (AddModerator.handleSubmit pageWorld "aaaaa-aa" ⟨[], false⟩).result =
      Except.error (JsError.ReferenceError "zzz") ∧
    (AddModerator.handleSubmit pageWorld "aaaaa-aa" ⟨[], false⟩).state.pending = true := by
  refine ⟨rfl, ?_, rfl, rfl⟩
  decide

/-- Reading a property of a spread: the last write of the source wins, and a
property the source lacks keeps the value of the target. -/
theorem JsObject.get_spread (src o : JsObject) (k : String) :
    JsObject.get (JsObject.spread o src) k =
      (JsObject.lastValue src k).getD (JsObject.get o k) := by
  induction src generalizing o with
  | nil => simp [JsObject.spread, JsObject.lastValue]
  | cons kv rest ih =>
    obtain ⟨k0, v0⟩ := kv
    have hstep : JsObject.spread o ((k0, v0) :: rest) =
        JsObject.spread (JsObject.set o k0 v0) rest := by
      simp [JsObject.spread]
    rw [hstep, ih, JsObject.get_set]
    cases hl : JsObject.lastValue rest k with
    | some x => simp [JsObject.lastValue, hl]
    | none =>
      by_cases hk : k0 = k
      · simp [JsObject.lastValue, hl, hk]
      · simp [JsObject.lastValue, hl, hk]

/-- The `actorOptions` a call of `createActor` spreads into the configuration. -/
theorem createActorWith_config (idl : IDLService) (env : Option String) (cid : JsValue)
    (options : Option ActorOptions) :
    (createActorWith idl env cid options).2.config =
      JsObject.spread
        [("agent", JsValue.agent ⟨(options.bind (fun o => o.agentOptions)).getD []⟩),
         ("canisterId", cid)]
        ((options.bind (fun o => o.actorOptions)).getD []) := by
  cases options with
  | none => rfl
  | some o =>
    obtain ⟨ag, ac⟩ := o
    cases ag <;> cases ac <;> rfl

/-- The root key is requested once outside production and never in production. -/
theorem createActorWith_fetchRootKey (idl : IDLService) (env : Option String)
    (cid : JsValue) (options : Option ActorOptions) :
    (createActorWith idl env cid options).1.count Event.fetchRootKey =
      if env = some "production" then 0 else 1 := by
  simp only [createActorWith]
  by_cases h : env = some "production"
  · simp [h, List.count_cons]
  · simp [h, List.count_cons, List.count_append]

/-- C9 as stated fails: with `actorOptions` that carry the canister id `other`,
the actor returned by `createActor` for the canister `b0` is built for `other`. -/
theorem C9_canister_id_overridden_counterexample :
    (Bucket.createActor (some "production") (JsValue.str "b0")
        (some overridingOptions)).2.canisterId ≠ JsValue.str "b0" ∧
    (Index.createActor (some "production") (JsValue.str "b0")
        (some overridingOptions)).2.canisterId ≠ JsValue.str "b0" := by
  constructor <;> decide

/-- C9 amended: `createActor` (of the index binding and of the bucket agent)
requests the root key of the agent exactly when `NODE_ENV` is not
`production`, and returns an actor built from the interface factory and a
configuration holding the new agent and the given canister id, in which a
property of `options.actorOptions` named `agent` or `canisterId` takes
precedence. -/
theorem C9_createActor_root_key_and_config (env : Option String) (cid : JsValue)
    (options : Option ActorOptions) :
    (Index.createActor env cid options).1.count Event.fetchRootKey =
      (if env = some "production" then 0 else 1) ∧
    (Bucket.createActor env cid options).1.count Event.fetchRootKey =
      (if env = some "production" then 0 else 1) ∧
    (Index.createActor env cid options).2.idl = Index.idlFactory ∧
    (Bucket.createActor env cid options).2.idl = Bucket.idlFactory ∧
    (Index.createActor env cid options).2.config =
      (Bucket.createActor env cid options).2.config ∧
    JsObject.get (Bucket.createActor env cid options).2.config "agent" =
      (JsObject.lastValue ((options.bind (fun o => o.actorOptions)).getD []) "agent").getD
        (JsValue.agent ⟨(options.bind (fun o => o.agentOptions)).getD []⟩) ∧
    JsObject.get (Bucket.createActor env cid options).2.config "canisterId" =
      (JsObject.lastValue ((options.bind (fun o => o.actorOptions)).getD [])
        "canisterId").getD cid := by
  refine ⟨createActorWith_fetchRootKey _ env cid options,
    createActorWith_fetchRootKey _ env cid options, rfl, rfl, ?_, ?_, ?_⟩
  · simp only [Index.createActor, Bucket.createActor, createActorWith_config]
  · simp only [Bucket.createActor, createActorWith_config, JsObject.get_spread]
    simp [JsObject.get, List.lookup]
  · simp only [Bucket.createActor, createActorWith_config, JsObject.get_spread]
    simp [JsObject.get, List.lookup]

/-! ### The shard invariant -/

theorem Shard.postContent_inv (permitted : Principal → Bool) (s : Shard.State)
    (p : Shard.Post) (h : Shard.Inv s) :
    Shard.Inv (Shard.postContent permitted s p).2.1 ∧
      (Shard.postContent permitted s p).2.1.max_entries = s.max_entries := by
  obtain ⟨hcur, hlen, hmax⟩ := h
  unfold Shard.postContent
  by_cases hfull : s.max_entries ≤ s.current_entries
  · rw [if_pos hfull]
    exact ⟨⟨hcur, hlen, hmax⟩, rfl⟩
  · rw [if_neg hfull]
    by_cases hperm : permitted p.caller = true
    · have hlt : s.current_entries + 1 < 2 ^ 64 := by omega
      have hnot : ¬ ((!permitted p.caller) = true) := by simp [hperm]
      rw [if_neg hnot]
      refine ⟨⟨?_, ?_, hmax⟩, rfl⟩
      · show (s.current_entries + 1) % 2 ^ 64 = (s.entries ++ [_]).length
        rw [Nat.mod_eq_of_lt hlt, List.length_append, List.length_singleton, hcur]
      · show (s.entries ++ [_]).length ≤ s.max_entries
        rw [List.length_append, List.length_singleton]
        omega
    · have hyes : (!permitted p.caller) = true := by simpa using hperm
      rw [if_pos hyes]
      exact ⟨⟨hcur, hlen, hmax⟩, rfl⟩

theorem Shard.runPosts_inv (permitted : Principal → Bool) (posts : List Shard.Post) :
    ∀ s : Shard.State, Shard.Inv s →
      Shard.Inv (Shard.runPosts permitted s posts).2 ∧
        (Shard.runPosts permitted s posts).2.max_entries = s.max_entries := by
  induction posts with
  | nil => intro s h; exact ⟨h, rfl⟩
  | cons p rest ih =>
    intro s h
    have h1 := Shard.postContent_inv permitted s p h
    have h2 := ih _ h1.1
    simp only [Shard.runPosts]
    exact ⟨h2.1, h2.2.trans h1.2⟩

/-- A shard as provisioned satisfies the invariant. -/
theorem Shard.create_inv (address : Principal) (max_entries : Nat)
    (h : max_entries < 2 ^ 64) : Shard.Inv (Shard.create address max_entries) :=
  ⟨rfl, Nat.zero_le _, h⟩

/-- C8: for every shard and every sequence of `postContent` requests, the
state satisfies `current_entries == count(entries) <= max_entries`; a
`postContent` on a full shard is rejected with `CapacityExceeded` and leaves
the state unchanged; with `max_entries = 2` the posts a/x and b/y succeed,
c/z fails and `getAll` returns the first two entries in that order. -/
theorem C8_shard_capacity_invariant (permitted : Principal → Bool) (s : Shard.State)
    (posts : List Shard.Post) (h : Shard.Inv s) :
    ((Shard.runPosts permitted s posts).2.current_entries =
        (Shard.runPosts permitted s posts).2.entries.length ∧
      (Shard.runPosts permitted s posts).2.entries.length ≤
        (Shard.runPosts permitted s posts).2.max_entries) ∧
    (∀ (t : Shard.State) (p : Shard.Post), t.max_entries ≤ t.current_entries →
      Shard.postContent permitted t p = (Except.error Shard.Error.CapacityExceeded, t, none)) ∧
    (Shard.runPosts (fun _ => true) (Shard.create ⟨"b0"⟩ 2) scenarioPosts).1 =
      [Except.ok true, Except.ok true, Except.error Shard.Error.CapacityExceeded] ∧
    Shard.getAll (Shard.runPosts (fun _ => true) (Shard.create ⟨"b0"⟩ 2) scenarioPosts).2 =
      [⟨"a", "x", 1, ⟨"alice"⟩⟩, ⟨"b", "y", 2, ⟨"alice"⟩⟩] := by
  have hinv := (Shard.runPosts_inv permitted posts s h).1
  refine ⟨⟨hinv.1, hinv.2.1⟩, ?_, rfl, rfl⟩
  intro t p hfull
  simp [Shard.postContent, hfull]

/-- C8 at a new shard of capacity 2 serving the three scenario requests. -/
theorem C8_shard_capacity_invariant_witness :
    Shard.Inv (Shard.create ⟨"b0"⟩ 2) ∧
    (Shard.runPosts (fun _ => true) (Shard.create ⟨"b0"⟩ 2) scenarioPosts).2.current_entries =
      (Shard.runPosts (fun _ => true) (Shard.create ⟨"b0"⟩ 2) scenarioPosts).2.entries.length :=
  have hinv : Shard.Inv (Shard.create ⟨"b0"⟩ 2) :=
    Shard.create_inv ⟨"b0"⟩ 2 (by norm_num)
  ⟨hinv, (C8_shard_capacity_invariant (fun _ => true) (Shard.create ⟨"b0"⟩ 2)
    scenarioPosts hinv).1.1⟩

/-! ### The upload order -/

theorem IndexService.mem_ranked (registry : List IndexService.ShardView)
    (v : IndexService.ShardView) :
    v ∈ IndexService.ranked registry ↔ v ∈ registry ∧ v.current_entries < v.max_entries := by
  unfold IndexService.ranked IndexService.candidates
  rw [List.mem_insertionSort, List.mem_filter]
  simp

theorem IndexService.ranked_eq_nil (registry : List IndexService.ShardView)
    (h : ∀ v ∈ registry, v.max_entries ≤ v.current_entries) :
    IndexService.ranked registry = [] := by
  apply List.eq_nil_iff_forall_not_mem.mpr
  intro v hv
  have hv' := (IndexService.mem_ranked registry v).mp hv
  have := h v hv'.1
  omega

theorem IndexService.listShards_mergeReport (st : IndexService.State) (a : Principal)
    (report : Shard.EffectiveIndex) :
    IndexService.listShards (IndexService.mergeReport st a report) =
      IndexService.listShards st := by
  unfold IndexService.listShards IndexService.mergeReport
  rw [List.map_map]
  apply List.map_congr_left
  intro v _
  by_cases h : v.address = a <;> simp [h]

theorem IndexService.listShards_register (cfg : IndexService.Config)
    (st : IndexService.State) (a : Principal) :
    IndexService.listShards (IndexService.register cfg st a) =
      IndexService.listShards st ++ [a] := by
  simp [IndexService.listShards, IndexService.register]

/-- Addresses of a reachable registry are pairwise distinct. -/
theorem IndexService.Reachable.nodup (cfg : IndexService.Config) (st : IndexService.State)
    (h : IndexService.Reachable cfg st) : (IndexService.listShards st).Nodup := by
  induction h with
  | init => simp [IndexService.listShards]
  | provision st a _ hfresh ih =>
    rw [IndexService.listShards_register]
    exact List.Nodup.append ih (List.nodup_singleton a)
      (by
        intro x hx hx'
        rw [List.mem_singleton] at hx'
        exact hfresh (hx' ▸ hx))
  | merge st a report _ ih =>
    rw [IndexService.listShards_mergeReport]
    exact ih

/-- In a registry with pairwise distinct addresses, every address of the
ranked list names exactly one view, which is not saturated. -/
theorem IndexService.ranked_address_not_saturated (registry : List IndexService.ShardView)
    (hnd : (registry.map (fun v => v.address)).Nodup) (a : Principal)
    (ha : a ∈ (IndexService.ranked registry).map (fun v => v.address))
    (v : IndexService.ShardView) (hv : v ∈ registry) (hva : v.address = a) :
    v.current_entries < v.max_entries := by
  obtain ⟨u, hu, hua⟩ := List.mem_map.mp ha
  have hu' := (IndexService.mem_ranked registry u).mp hu
  have huv : u = v := List.inj_on_of_nodup_map hnd hu'.1 hv (hua.trans hva.symm)
  exact huv ▸ hu'.2

/-- The ranked list after registering a shard next to saturated ones. -/
theorem IndexService.ranked_register_of_saturated (cfg : IndexService.Config)
    (st : IndexService.State) (a : Principal)
    (h : ∀ v ∈ st.registry, v.max_entries ≤ v.current_entries) :
    IndexService.ranked (IndexService.register cfg st a).registry =
      if 0 < cfg.standardMaxEntries then [⟨a, cfg.standardMaxEntries, 0, []⟩] else [] := by
  have hnil : st.registry.filter (fun v => decide (v.current_entries < v.max_entries)) = [] := by
    apply List.filter_eq_nil_iff.mpr
    intro v hv
    have := h v hv
    simp
    omega
  unfold IndexService.ranked IndexService.candidates IndexService.register
  rw [List.filter_append, hnil]
  by_cases hpos : 0 < cfg.standardMaxEntries
  · simp [List.filter, hpos]
  · simp [List.filter, hpos]

/-- C7: in every reachable state of the index service, `getUploadOrder`
returns no shard whose last-known `current_entries` is greater than or equal
to its `max_entries`; when every registered shard is saturated the result is
the empty sequence or a newly provisioned, non-saturated shard. -/
theorem C7_upload_order_excludes_saturated (cfg : IndexService.Config)
    (provisioned : Option Principal) (observed : Bool) (st : IndexService.State)
    (hreach : IndexService.Reachable cfg st)
    (hfresh : ∀ a, provisioned = some a → a ∉ IndexService.listShards st) :
    (∀ a ∈ (IndexService.getUploadOrder cfg provisioned observed st).2,
      ∀ v ∈ (IndexService.getUploadOrder cfg provisioned observed st).1.registry,
        v.address = a → v.current_entries < v.max_entries) ∧
    ((∀ v ∈ st.registry, v.max_entries ≤ v.current_entries) →
      (IndexService.getUploadOrder cfg provisioned observed st).2 = [] ∨
      ∃ a, provisioned = some a ∧ a ∉ IndexService.listShards st ∧
        (IndexService.getUploadOrder cfg provisioned observed st).2 = [a] ∧
        (⟨a, cfg.standardMaxEntries, 0, []⟩ : IndexService.ShardView) ∈
          (IndexService.getUploadOrder cfg provisioned observed st).1.registry ∧
        0 < cfg.standardMaxEntries) := by
  have hnd := IndexService.Reachable.nodup cfg st hreach
  have hold : ∀ a ∈ (IndexService.ranked st.registry).map (fun v => v.address),
      ∀ v ∈ st.registry, v.address = a → v.current_entries < v.max_entries :=
    fun a ha v hv hva =>
      IndexService.ranked_address_not_saturated st.registry hnd a ha v hv hva
  unfold IndexService.getUploadOrder
  by_cases hlow : IndexService.totalRemaining st.registry < cfg.lowWaterMark
  · rw [if_pos hlow]
    cases provisioned with
    | none =>
      refine ⟨hold, fun hsat => Or.inl ?_⟩
      simp [IndexService.ranked_eq_nil st.registry hsat]
    | some a =>
      have hfa : a ∉ IndexService.listShards st := hfresh a rfl
      have hreach1 := IndexService.Reachable.provision st a hreach hfa
      have hnd1 := IndexService.Reachable.nodup cfg _ hreach1
      cases observed with
      | true =>
        refine ⟨?_, ?_⟩
        · intro b hb v hv hvb
          exact IndexService.ranked_address_not_saturated _ hnd1 b hb v hv hvb
        · intro hsat
          have hr := IndexService.ranked_register_of_saturated cfg st a hsat
          by_cases hpos : 0 < cfg.standardMaxEntries
          · right
            refine ⟨a, rfl, hfa, ?_, ?_, hpos⟩
            · simp [hr, hpos]
            · simp [IndexService.register]
          · left
            simp [hr, hpos]
      | false =>
        refine ⟨?_, fun hsat => Or.inl ?_⟩
        · intro b hb v hv hvb
          have hv' : v ∈ st.registry ++ [⟨a, cfg.standardMaxEntries, 0, []⟩] := hv
          rcases List.mem_append.mp hv' with hin | hnew
          · exact hold b hb v hin hvb
          · exfalso
            rw [List.mem_singleton] at hnew
            have hba : b = a := by rw [← hvb, hnew]
            obtain ⟨u, hu, hub⟩ := List.mem_map.mp hb
            have hu' := (IndexService.mem_ranked st.registry u).mp hu
            apply hfa
            rw [← hba, ← hub]
            exact List.mem_map.mpr ⟨u, hu'.1, rfl⟩
        · simp [IndexService.ranked_eq_nil st.registry hsat]
  · rw [if_neg hlow]
    refine ⟨hold, fun hsat => Or.inl ?_⟩
    simp [IndexService.ranked_eq_nil st.registry hsat]

/-- C7 at a reachable registry of a saturated and a half-full shard, with a
third shard provisioned and observed. -/
theorem C7_upload_order_excludes_saturated_witness :
    (IndexService.getUploadOrder ⟨2, 2⟩ (some ⟨"b2"⟩) true sampleIndex).2 = [⟨"b2"⟩, ⟨"b1"⟩] ∧
    ∀ a ∈ (IndexService.getUploadOrder ⟨2, 2⟩ (some ⟨"b2"⟩) true sampleIndex).2,
      ∀ v ∈ (IndexService.getUploadOrder ⟨2, 2⟩ (some ⟨"b2"⟩) true sampleIndex).1.registry,
        v.address = a → v.current_entries < v.max_entries :=
  have hreach : IndexService.Reachable ⟨2, 2⟩ sampleIndex :=
    IndexService.Reachable.merge _ _ _
      (IndexService.Reachable.merge _ _ _
        (IndexService.Reachable.provision _ _
          (IndexService.Reachable.provision _ _ IndexService.Reachable.init (by decide))
          (by decide)))
  ⟨by decide, (C7_upload_order_excludes_saturated ⟨2, 2⟩ (some ⟨"b2"⟩) true sampleIndex hreach
    (by
      intro a ha
      cases ha
      decide)).1⟩

end QuickstartScaling
